import Mathlib

/-!
# Multicall watcher call lists of the CDP portal

A shallow embedding of `src/watch.js` and `src/reducers/multicall/accounts.js`.

The watcher keeps a list of registered call descriptors.  Each of
`updateWatcherWithAccount`, `updateWatcherWithProxy` and `startWatcher` hands
`multicall.tap` a function from the registered list to the new list; the
embedding models the registered list as a `List Call` and `tap` as applying
that function.

Code that `watch.js` imports but that is not part of the embedded sources
(`tokensWithBalances`, `isMissingContractAddress`, `ilks`,
`createCDPSystemModel`, `cdpTypeModel`, `savingsModel`) is taken as a
parameter, so every theorem holds for any value of it.
-/

namespace McdCdpPortal

/-! ## JavaScript values -/

/-- The JavaScript values that occur as addresses, call arguments and meta
flags: `undefined`, `null`, booleans and strings. -/
inductive JSVal where
  | undefined : JSVal
  | null : JSVal
  | bool (b : Bool) : JSVal
  | str (s : String) : JSVal
  deriving DecidableEq, Repr

namespace JSVal

/-- JavaScript truthiness: `undefined`, `null`, `false` and the empty string
are falsy. -/
def truthy : JSVal → Bool
  | undefined => false
  | null => false
  | bool b => b
  | str s => decide (s ≠ "")

/-- The operator `a && b`: it yields `a` when `a` is falsy and `b` otherwise. -/
def and (a b : JSVal) : JSVal :=
  if a.truthy then b else a

/-- The text a value contributes to a template literal. -/
def toTemplate : JSVal → String
  | undefined => "undefined"
  | null => "null"
  | bool true => "true"
  | bool false => "false"
  | str s => s

end JSVal

/-- A plain JavaScript object with string keys, as a list of entries. -/
abbrev JSObject := List (String × JSVal)

/-- Property read `o[k]`: the value stored under `k`, `undefined` when the key
is absent. -/
def getProp : JSObject → String → JSVal
  | [], _ => JSVal.undefined
  | (k', v) :: o, k => if k' = k then v else getProp o k

/-- Property write `o[k] = v`: it overwrites the entry of `k` when there is
one and adds the entry otherwise. -/
def setProp : JSObject → String → JSVal → JSObject
  | [], k, v => [(k, v)]
  | (k', v') :: o, k, v => if k' = k then (k, v) :: o else (k', v') :: setProp o k v

/-! ## Call descriptors -/

/-- The functions that a `returns` entry applies to the value read on chain.
Their arithmetic is not part of the embedding. -/
inductive Transform where
  | fromWei : Transform
  | fromWeiToNumber : Transform
  deriving DecidableEq, Repr

/-- A call descriptor of the multicall watcher.  `meta` is `none` for a
descriptor without a `meta` property. -/
structure Call where
  target : JSVal
  call : List JSVal
  returns : List (String × Transform)
  meta : Option JSObject
  deriving DecidableEq, Repr

/-- The expression `call?.meta?.[k]`. -/
def metaFlag (call : Call) (k : String) : JSVal :=
  match call.meta with
  | none => JSVal.undefined
  | some m => getProp m k

/-- The function `flatten` of lodash on an array of arrays. -/
def flatten {α : Type} : List (List α) → List α
  | [] => []
  | xs :: xss => xs ++ flatten xss

/-! ## `reducers/multicall/accounts.js` -/

/-- The object literal that `accountProxyAllowanceForToken` returns inside its
array (`accounts.js`, lines 28-44). -/
def allowanceDescriptor (addresses : JSObject) (tokenSymbol : String)
    (accountAddress proxyAddress : JSVal) : Call :=
  { target := getProp addresses tokenSymbol
    call := [JSVal.str "allowance(address,address)(uint256)", accountAddress, proxyAddress]
    returns :=
      [("accounts." ++ accountAddress.toTemplate ++ ".allowances." ++ tokenSymbol,
        Transform.fromWeiToNumber)]
    meta := some [("accountProxyAllowanceForToken", JSVal.bool true)] }

/-- The function `accountProxyAllowanceForToken` of `accounts.js`, lines 21-46. -/
def accountProxyAllowanceForToken (addresses : JSObject) (tokenSymbol : String)
    (accountAddress proxyAddress : JSVal) : List Call :=
  [allowanceDescriptor addresses tokenSymbol accountAddress proxyAddress]

/-! ## `watch.js` -/

/-- The service object `maker`, reduced to the address map that
`maker.service('smartContract').getContractAddresses()` returns. -/
structure Maker where
  getContractAddresses : JSObject

/-- The two assignments `addresses.MDAI = addresses.MCD_DAI;` and
`addresses.MWETH = addresses.ETH;` that open each of the three functions. -/
def addTokenLookups (addresses : JSObject) : JSObject :=
  let addresses := setProp addresses "MDAI" (getProp addresses "MCD_DAI")
  setProp addresses "MWETH" (getProp addresses "ETH")

/-- The method `multicall.tap`: the registered calls become what the given
function makes of them. -/
def tap (transform : List Call → List Call) (calls : List Call) : List Call :=
  transform calls

/-- The allowance calls that both update functions spread into the new list:
`accountAddress && proxyAddress ? flatten(tokensWithBalances.filter(..).map(..)) : []`
(lines 47-65 and 82-96). -/
def allowanceCalls (tokensWithBalances : List String) (addresses : JSObject)
    (accountAddress proxyAddress : JSVal) : List Call :=
  if (accountAddress.and proxyAddress).truthy then
    flatten
      ((tokensWithBalances.filter (fun token => token != "ETH" && token != "DSR")).map
        (fun token => accountProxyAllowanceForToken addresses token accountAddress proxyAddress))
  else []

/-- The array literal of `updateWatcherWithAccount` before its final
`.filter` (lines 24-65): the old calls that pass the first filter, then the
allowance calls. -/
def accountMerged (tokensWithBalances : List String) (addresses : JSObject)
    (accountAddress proxyAddress : JSVal) (calls : List Call) : List Call :=
  calls.filter
      (fun call =>
        !((accountAddress.and proxyAddress).and
            (metaFlag call "accountProxyAllowanceForToken")).truthy)
    ++ allowanceCalls tokensWithBalances addresses accountAddress proxyAddress

/-- The function `updateWatcherWithAccount` of `watch.js`, as the new
registered list in terms of the old one. -/
def updateWatcherWithAccount (tokensWithBalances : List String)
    (isMissingContractAddress : Call → Bool) (maker : Maker)
    (accountAddress proxyAddress : JSVal) (calls : List Call) : List Call :=
  let addresses := addTokenLookups maker.getContractAddresses
  tap
    (fun calls =>
      (accountMerged tokensWithBalances addresses accountAddress proxyAddress calls).filter
        (fun call => !isMissingContractAddress call))
    calls

/-- The array literal of `updateWatcherWithProxy` before its final `.filter`
(lines 80-96): all old calls, then the allowance calls. -/
def proxyMerged (tokensWithBalances : List String) (addresses : JSObject)
    (accountAddress proxyAddress : JSVal) (calls : List Call) : List Call :=
  calls ++ allowanceCalls tokensWithBalances addresses accountAddress proxyAddress

/-- The function `updateWatcherWithProxy` of `watch.js`. -/
def updateWatcherWithProxy (tokensWithBalances : List String)
    (isMissingContractAddress : Call → Bool) (maker : Maker)
    (accountAddress proxyAddress : JSVal) (calls : List Call) : List Call :=
  let addresses := addTokenLookups maker.getContractAddresses
  tap
    (fun calls =>
      (proxyMerged tokensWithBalances addresses accountAddress proxyAddress calls).filter
        (fun call => !isMissingContractAddress call))
    calls

/-- The array literal of `startWatcher` before its `.filter` (lines 116-121). -/
def startMerged {Ilk : Type} (ilks : List Ilk)
    (createCDPSystemModel : JSObject → List Call)
    (cdpTypeModel : JSObject → Ilk → List Call)
    (savingsModel : JSObject → List Call)
    (addresses : JSObject) (calls : List Call) : List Call :=
  calls ++ createCDPSystemModel addresses
    ++ flatten (ilks.map (fun ilk => cdpTypeModel addresses ilk))
    ++ savingsModel addresses

/-- The function `startWatcher` of `watch.js`: the list it registers. -/
def startWatcher {Ilk : Type} (ilks : List Ilk)
    (createCDPSystemModel : JSObject → List Call)
    (cdpTypeModel : JSObject → Ilk → List Call)
    (savingsModel : JSObject → List Call)
    (isMissingContractAddress : Call → Bool) (maker : Maker)
    (calls : List Call) : List Call :=
  let addresses := addTokenLookups maker.getContractAddresses
  tap
    (fun calls =>
      (startMerged ilks createCDPSystemModel cdpTypeModel savingsModel addresses calls).filter
        (fun call => !isMissingContractAddress call))
    calls


/-! ## Sample inputs of the worked examples -/

/-- A sample `isMissingContractAddress`: the descriptor has no target. -/
def targetUndefined (call : Call) : Bool :=
  decide (call.target = JSVal.undefined)

/-- A sample address map with entries for `MCD_DAI`, `ETH`, `BAT` and `MCD_POT`. -/
def sampleMaker : Maker :=
  { getContractAddresses :=
      [("MCD_DAI", JSVal.str "0xdai"), ("ETH", JSVal.str "0xeth"),
        ("BAT", JSVal.str "0xbat"), ("MCD_POT", JSVal.str "0xpot")] }

/-- A sample list of token symbols with balances. -/
def sampleTokens : List String := ["MDAI", "DSR", "ETH", "BAT"]

/-- A registered call without any account tag. -/
def systemCall : Call :=
  { target := JSVal.str "0xvat"
    call := [JSVal.str "Line()(uint256)"]
    returns := [("system.globalDebtCeiling", Transform.fromWei)]
    meta := none }

/-- A registered allowance call of an earlier account and proxy. -/
def staleCall : Call :=
  allowanceDescriptor (addTokenLookups sampleMaker.getContractAddresses) "BAT"
    (JSVal.str "0xOLD") (JSVal.str "0xOLDPROXY")

/-- A sample list of collateral types. -/
def sampleIlks : List String := ["ETH-A", "BAT-A"]

/-- A sample `createCDPSystemModel`: one call on the `MCD_VAT` contract. -/
def sampleSystemModel (addresses : JSObject) : List Call :=
  [{ target := getProp addresses "MCD_VAT"
     call := [JSVal.str "Line()(uint256)"]
     returns := [("system.globalDebtCeiling", Transform.fromWei)]
     meta := none }]

/-- A sample `cdpTypeModel`: one call per collateral type on the `MCD_POT`
contract. -/
def sampleTypeModel (addresses : JSObject) (ilk : String) : List Call :=
  [{ target := getProp addresses "MCD_POT"
     call := [JSVal.str "ilks(bytes32)(uint256)", JSVal.str ilk]
     returns := [("feeds." ++ ilk ++ ".rate", Transform.fromWei)]
     meta := none }]

/-- A sample `savingsModel`: one call on the `MCD_POT` contract. -/
def sampleSavingsModel (addresses : JSObject) : List Call :=
  [{ target := getProp addresses "MCD_POT"
     call := [JSVal.str "Pie()(uint256)"]
     returns := [("savings.Pie", Transform.fromWei)]
     meta := none }]

/-! ## Auxiliary facts -/

theorem truthy_and (a b : JSVal) : (a.and b).truthy = (a.truthy && b.truthy) := by
  unfold JSVal.and
  cases h : a.truthy <;> simp [h]

theorem flatten_map_singleton {α β : Type} (f : α → β) (l : List α) :
    flatten (l.map (fun x => [f x])) = l.map f := by
  induction l with
  | nil => rfl
  | cons x xs ih => simp [flatten, ih]

theorem getProp_setProp (o : JSObject) (k k' : String) (v : JSVal) :
    getProp (setProp o k v) k' = if k = k' then v else getProp o k' := by
  induction o with
  | nil => simp [setProp, getProp]
  | cons e o ih =>
    obtain ⟨k0, v0⟩ := e
    by_cases h : k0 = k
    · subst h
      by_cases h' : k0 = k' <;> simp [setProp, getProp, h']
    · by_cases h' : k0 = k'
      · subst h'
        simp [setProp, getProp, h, Ne.symm h]
      · simp [setProp, getProp, h, h', ih]

theorem getProp_addTokenLookups (addresses : JSObject) (k : String) :
    getProp (addTokenLookups addresses) k =
      if k = "MDAI" then getProp addresses "MCD_DAI"
      else if k = "MWETH" then getProp addresses "ETH"
      else getProp addresses k := by
  unfold addTokenLookups
  simp only [getProp_setProp]
  have h1 : ¬ ("MDAI" = "ETH") := by decide
  have h2 : ¬ ("MWETH" = "MDAI") := by decide
  by_cases hk : k = "MDAI"
  · subst hk
    simp [h1, h2]
  · by_cases hk' : k = "MWETH"
    · subst hk'
      simp [h1]
    · simp [h1, hk, hk', Ne.symm hk, Ne.symm hk']

/-- A string ends in another when the characters of the second close the
characters of the first. -/
def endsIn (s t : String) : Prop := t.data <:+ s.data

instance (s t : String) : Decidable (endsIn s t) := by
  unfold endsIn
  infer_instance

theorem allowanceCalls_eq (tokensWithBalances : List String) (addresses : JSObject)
    (a p : JSVal) :
    allowanceCalls tokensWithBalances addresses a p =
      if (a.truthy && p.truthy) = true then
        (tokensWithBalances.filter (fun token => token != "ETH" && token != "DSR")).map
          (fun token => allowanceDescriptor addresses token a p)
      else [] := by
  unfold allowanceCalls accountProxyAllowanceForToken
  rw [truthy_and, flatten_map_singleton]

theorem mem_allowanceCalls (tokensWithBalances : List String) (addresses : JSObject)
    (a p : JSVal) (c : Call) :
    c ∈ allowanceCalls tokensWithBalances addresses a p ↔
      a.truthy = true ∧ p.truthy = true ∧
        ∃ token ∈ tokensWithBalances, token ≠ "ETH" ∧ token ≠ "DSR" ∧
          c = allowanceDescriptor addresses token a p := by
  rw [allowanceCalls_eq]
  by_cases h : (a.truthy && p.truthy) = true
  · have h' := h
    simp only [Bool.and_eq_true] at h'
    simp only [h, if_true, List.mem_map, List.mem_filter, Bool.and_eq_true, bne_iff_ne, ne_eq]
    constructor
    · rintro ⟨t, ⟨ht, h1, h2⟩, rfl⟩
      exact ⟨h'.1, h'.2, t, ht, h1, h2, rfl⟩
    · rintro ⟨_, _, t, ht, h1, h2, rfl⟩
      exact ⟨t, ⟨ht, h1, h2⟩, rfl⟩
  · rw [if_neg h]
    simp only [List.not_mem_nil, false_iff]
    rintro ⟨h1, h2, _⟩
    exact h (by simp [h1, h2])

theorem split_at_sep {c : Char} : ∀ (a a' r r' : List Char), c ∉ a → c ∉ a' →
    a ++ c :: r = a' ++ c :: r' → a = a' ∧ r = r' := by
  intro a
  induction a with
  | nil =>
    intro a' r r' _ ha' h
    cases a' with
    | nil => simpa using h
    | cons x xs =>
      simp at h
      simp at ha'
      exact absurd h.1 ha'.1
  | cons y ys ih =>
    intro a' r r' ha ha' h
    cases a' with
    | nil =>
      simp at h
      simp at ha
      exact absurd h.1.symm ha.1
    | cons x xs =>
      simp at h ha ha'
      obtain ⟨h1, h2⟩ := ih xs r r' ha.2 ha'.2 h.2
      exact ⟨by rw [h.1, h1], h2⟩

theorem last_segment_eq {c : Char} (x y t s : List Char) (ht : c ∉ t) (hs : c ∉ s)
    (h : x ++ c :: t = y ++ c :: s) : t = s := by
  have h' := congrArg List.reverse h
  simp only [List.reverse_append, List.reverse_cons, List.append_assoc,
    List.singleton_append] at h'
  have := split_at_sep t.reverse s.reverse x.reverse y.reverse
    (by simpa using ht) (by simpa using hs) h'
  simpa using this.1

/-- Two allowance keys with dot-free account texts agree only when the
account texts and the token symbols agree. -/
theorem allowance_key_inj (a1 a2 t1 t2 : String)
    (h1 : '.' ∉ a1.data) (h2 : '.' ∉ a2.data)
    (h : "accounts." ++ a1 ++ ".allowances." ++ t1 = "accounts." ++ a2 ++ ".allowances." ++ t2) :
    a1 = a2 ∧ t1 = t2 := by
  have hd := congrArg String.data h
  simp only [String.data_append, List.append_assoc] at hd
  have hd' := List.append_cancel_left hd
  simp only [List.cons_append] at hd'
  obtain ⟨ha, hr⟩ := split_at_sep _ _ _ _ h1 h2 hd'
  have ht : t1.data = t2.data := by simpa using hr
  exact ⟨String.ext ha, String.ext ht⟩

/-- A key whose last path segment is a dot-free token symbol ends in
`.allowances.` followed by a dot-free name only when that name is the symbol. -/
theorem allowance_key_endsIn (pre t name : String) (ht : '.' ∉ t.data)
    (hn : '.' ∉ name.data)
    (h : endsIn (pre ++ ".allowances." ++ t) (".allowances." ++ name)) : t = name := by
  obtain ⟨y, hy⟩ := h
  simp only [String.data_append] at hy
  have hy' : (y ++ ['.', 'a', 'l', 'l', 'o', 'w', 'a', 'n', 'c', 'e', 's']) ++ '.' :: name.data =
      (pre.data ++ ['.', 'a', 'l', 'l', 'o', 'w', 'a', 'n', 'c', 'e', 's']) ++ '.' :: t.data := by
    simpa [List.append_assoc] using hy
  exact String.ext (last_segment_eq _ _ _ _ hn ht hy').symm

/-! ## The call builder of `accounts.js` -/

/-- C9: `accountProxyAllowanceForToken` returns exactly one descriptor; its
target is `addresses[tokenSymbol]`, its call is the `allowance` signature with
the account and the proxy, its single `returns` entry has the key
`accounts.<account>.allowances.<symbol>` and its meta is exactly
`{accountProxyAllowanceForToken: true}`.  Distinct pairs of account and token
symbol that contain no dot yield distinct keys. -/
theorem accountProxyAllowanceForToken_descriptor (addresses : JSObject)
    (tokenSymbol : String) (accountAddress proxyAddress : JSVal) :
    (∃ c, accountProxyAllowanceForToken addresses tokenSymbol accountAddress proxyAddress = [c] ∧
      c.target = getProp addresses tokenSymbol ∧
      c.call =
        [JSVal.str "allowance(address,address)(uint256)", accountAddress, proxyAddress] ∧
      c.returns.map Prod.fst =
        ["accounts." ++ accountAddress.toTemplate ++ ".allowances." ++ tokenSymbol] ∧
      c.meta = some [("accountProxyAllowanceForToken", JSVal.bool true)]) ∧
    (∀ (a1 a2 t1 t2 : String) (p1 p2 : JSVal) (ad1 ad2 : JSObject),
      '.' ∉ a1.data → '.' ∉ t1.data → '.' ∉ a2.data → '.' ∉ t2.data →
      (a1, t1) ≠ (a2, t2) →
      ∀ c1 ∈ accountProxyAllowanceForToken ad1 t1 (JSVal.str a1) p1,
      ∀ c2 ∈ accountProxyAllowanceForToken ad2 t2 (JSVal.str a2) p2,
      ∀ k1 ∈ c1.returns, ∀ k2 ∈ c2.returns, k1.1 ≠ k2.1) := by
  refine ⟨⟨_, rfl, rfl, rfl, rfl, rfl⟩, ?_⟩
  intro a1 a2 t1 t2 p1 p2 ad1 ad2 h1 _ h2 _ hne c1 hc1 c2 hc2 k1 hk1 k2 hk2 hk
  simp only [accountProxyAllowanceForToken, List.mem_singleton] at hc1 hc2
  subst hc1
  subst hc2
  simp only [allowanceDescriptor, List.mem_singleton] at hk1 hk2
  subst hk1
  subst hk2
  obtain ⟨e1, e2⟩ := allowance_key_inj a1 a2 t1 t2 h1 h2 hk
  exact hne (by rw [e1, e2])

/-- The descriptor of C9 at a concrete address map, with two dot-free pairs
that differ in the token symbol only. -/
theorem accountProxyAllowanceForToken_descriptor_witness :
    (∃ c, accountProxyAllowanceForToken [("BAT", JSVal.str "0xbat")] "BAT"
        (JSVal.str "0xA") (JSVal.str "0xP") = [c] ∧
      c.target = JSVal.str "0xbat" ∧
      c.returns.map Prod.fst = ["accounts.0xA.allowances.BAT"]) ∧
    (allowanceDescriptor [] "BAT" (JSVal.str "0xA") JSVal.null).returns.map Prod.fst ≠
      (allowanceDescriptor [] "MDAI" (JSVal.str "0xA") JSVal.null).returns.map Prod.fst := by
  have h := accountProxyAllowanceForToken_descriptor [("BAT", JSVal.str "0xbat")] "BAT"
    (JSVal.str "0xA") (JSVal.str "0xP")
  obtain ⟨⟨c, hc, ht, _, hr, _⟩, hinj⟩ := h
  refine ⟨⟨c, hc, ?_, ?_⟩, ?_⟩
  · rw [ht]; decide
  · rw [hr]; decide
  · intro heq
    have := hinj "0xA" "0xA" "BAT" "MDAI" JSVal.null JSVal.null [] []
      (by decide) (by decide) (by decide) (by decide) (by decide)
      (allowanceDescriptor [] "BAT" (JSVal.str "0xA") JSVal.null) (by simp [accountProxyAllowanceForToken])
      (allowanceDescriptor [] "MDAI" (JSVal.str "0xA") JSVal.null) (by simp [accountProxyAllowanceForToken])
      _ (List.mem_singleton.2 rfl) _ (List.mem_singleton.2 rfl)
    exact this (by simpa [allowanceDescriptor] using heq)

/-! ## `updateWatcherWithAccount` -/

/-- C1: with a truthy account and proxy, every call of the list that
`updateWatcherWithAccount` produces and that is tagged
`accountProxyAllowanceForToken` is one of the newly built calls and has the
call field `['allowance(address,address)(uint256)', accountAddress,
proxyAddress]`; the old calls without the tag that have a contract address
are kept in their order, ahead of the new calls. -/
theorem updateWatcherWithAccount_replaces_allowance_calls
    (tokensWithBalances : List String) (isMissingContractAddress : Call → Bool)
    (maker : Maker) (accountAddress proxyAddress : JSVal) (calls : List Call)
    (ha : accountAddress.truthy = true) (hp : proxyAddress.truthy = true) :
    (∀ c ∈ updateWatcherWithAccount tokensWithBalances isMissingContractAddress maker
          accountAddress proxyAddress calls,
      (metaFlag c "accountProxyAllowanceForToken").truthy = true →
        (∃ token ∈ tokensWithBalances,
          c ∈ accountProxyAllowanceForToken (addTokenLookups maker.getContractAddresses)
            token accountAddress proxyAddress) ∧
        c.call =
          [JSVal.str "allowance(address,address)(uint256)", accountAddress, proxyAddress]) ∧
    (∃ added : List Call,
      (∀ c ∈ added, ∃ token ∈ tokensWithBalances,
        c ∈ accountProxyAllowanceForToken (addTokenLookups maker.getContractAddresses)
          token accountAddress proxyAddress) ∧
      updateWatcherWithAccount tokensWithBalances isMissingContractAddress maker
          accountAddress proxyAddress calls =
        calls.filter
            (fun c =>
              !(metaFlag c "accountProxyAllowanceForToken").truthy &&
                !isMissingContractAddress c)
          ++ added) := by
  have hnew : ∀ c ∈ allowanceCalls tokensWithBalances
        (addTokenLookups maker.getContractAddresses) accountAddress proxyAddress,
      (∃ token ∈ tokensWithBalances,
          c ∈ accountProxyAllowanceForToken (addTokenLookups maker.getContractAddresses)
            token accountAddress proxyAddress) ∧
        c.call =
          [JSVal.str "allowance(address,address)(uint256)", accountAddress, proxyAddress] := by
    intro c hc
    obtain ⟨_, _, t, ht, _, _, rfl⟩ := (mem_allowanceCalls _ _ _ _ _).1 hc
    exact ⟨⟨t, ht, by simp [accountProxyAllowanceForToken]⟩, rfl⟩
  have hres : updateWatcherWithAccount tokensWithBalances isMissingContractAddress maker
          accountAddress proxyAddress calls =
        calls.filter
            (fun c =>
              !(metaFlag c "accountProxyAllowanceForToken").truthy &&
                !isMissingContractAddress c)
          ++ (allowanceCalls tokensWithBalances (addTokenLookups maker.getContractAddresses)
              accountAddress proxyAddress).filter (fun c => !isMissingContractAddress c) := by
    simp only [updateWatcherWithAccount, tap, accountMerged, List.filter_append,
      List.filter_filter, truthy_and, ha, hp, Bool.true_and]
    congr 1
    apply List.filter_congr
    intro c _
    exact Bool.and_comm _ _
  constructor
  · intro c hc htag
    rw [hres, List.mem_append] at hc
    rcases hc with hc | hc
    · have := (List.mem_filter.1 hc).2
      simp [htag] at this
    · exact hnew c (List.mem_filter.1 hc).1
  · exact ⟨_, fun c hc => (hnew c (List.mem_filter.1 hc).1).1, hres⟩

/-- The statement of C1 at a sample input: the tagged calls of the result
carry the new account and proxy. -/
theorem updateWatcherWithAccount_replaces_allowance_calls_witness :
    (JSVal.str "0xA").truthy = true ∧ (JSVal.str "0xP").truthy = true ∧
    ∀ c ∈ updateWatcherWithAccount sampleTokens targetUndefined sampleMaker
          (JSVal.str "0xA") (JSVal.str "0xP") [staleCall, systemCall],
      (metaFlag c "accountProxyAllowanceForToken").truthy = true →
        (∃ token ∈ sampleTokens,
          c ∈ accountProxyAllowanceForToken (addTokenLookups sampleMaker.getContractAddresses)
            token (JSVal.str "0xA") (JSVal.str "0xP")) ∧
        c.call =
          [JSVal.str "allowance(address,address)(uint256)", JSVal.str "0xA",
            JSVal.str "0xP"] :=
  ⟨by decide, by decide,
    (updateWatcherWithAccount_replaces_allowance_calls sampleTokens targetUndefined
      sampleMaker (JSVal.str "0xA") (JSVal.str "0xP") [staleCall, systemCall]
      (by decide) (by decide)).1⟩

/-- C2 fails when the proxy is `null`: the allowance call of the earlier
account stays registered although its account argument is not the new
account. -/
theorem updateWatcherWithAccount_keeps_stale_allowance_call :
    ∃ c ∈ updateWatcherWithAccount sampleTokens targetUndefined sampleMaker
          (JSVal.str "0xNEW") JSVal.null [staleCall, systemCall],
      (metaFlag c "accountProxyAllowanceForToken").truthy = true ∧
        (c.call.getD 1 JSVal.undefined ≠ JSVal.str "0xNEW" ∨
          c.call.getD 2 JSVal.undefined ≠ JSVal.null) :=
  ⟨staleCall, by decide, by decide, Or.inl (by decide)⟩

/-- C2, amended: with a truthy account and proxy every call of the result
tagged `accountProxyAllowanceForToken` has the account as `call[1]` and the
proxy as `call[2]`; when the account or the proxy is falsy the result is the
old list without the calls that miss a contract address, so tagged calls of
an earlier identity stay. -/
theorem updateWatcherWithAccount_allowance_calls_in_sync
    (tokensWithBalances : List String) (isMissingContractAddress : Call → Bool)
    (maker : Maker) (accountAddress proxyAddress : JSVal) (calls : List Call) :
    (accountAddress.truthy = true → proxyAddress.truthy = true →
      ∀ c ∈ updateWatcherWithAccount tokensWithBalances isMissingContractAddress maker
            accountAddress proxyAddress calls,
        (metaFlag c "accountProxyAllowanceForToken").truthy = true →
          c.call.getD 1 JSVal.undefined = accountAddress ∧
            c.call.getD 2 JSVal.undefined = proxyAddress) ∧
    ((accountAddress.truthy && proxyAddress.truthy) = false →
      updateWatcherWithAccount tokensWithBalances isMissingContractAddress maker
          accountAddress proxyAddress calls =
        calls.filter (fun c => !isMissingContractAddress c)) := by
  constructor
  · intro ha hp c hc htag
    have hc' : c ∈ accountMerged tokensWithBalances
        (addTokenLookups maker.getContractAddresses) accountAddress proxyAddress calls :=
      (List.mem_filter.1 hc).1
    rw [accountMerged, List.mem_append] at hc'
    rcases hc' with hc' | hc'
    · have := (List.mem_filter.1 hc').2
      simp [truthy_and, ha, hp, htag] at this
    · obtain ⟨_, _, t, _, _, _, rfl⟩ := (mem_allowanceCalls _ _ _ _ _).1 hc'
      exact ⟨rfl, rfl⟩
  · intro h
    simp [updateWatcherWithAccount, tap, accountMerged, allowanceCalls_eq, truthy_and, h]

/-- The statement of C2 as amended at a sample input with a truthy account
and proxy. -/
theorem updateWatcherWithAccount_allowance_calls_in_sync_witness :
    (JSVal.str "0xNEW").truthy = true ∧ (JSVal.str "0xP").truthy = true ∧
    ∀ c ∈ updateWatcherWithAccount sampleTokens targetUndefined sampleMaker
          (JSVal.str "0xNEW") (JSVal.str "0xP") [staleCall, systemCall],
      (metaFlag c "accountProxyAllowanceForToken").truthy = true →
        c.call.getD 1 JSVal.undefined = JSVal.str "0xNEW" ∧
          c.call.getD 2 JSVal.undefined = JSVal.str "0xP" :=
  ⟨by decide, by decide,
    (updateWatcherWithAccount_allowance_calls_in_sync sampleTokens targetUndefined sampleMaker
      (JSVal.str "0xNEW") (JSVal.str "0xP") [staleCall, systemCall]).1
      (by decide) (by decide)⟩

/-- C3, the code at a failing input: the header comment of
`updateWatcherWithAccount` promises tracking of token balances, proxy
allowances and savings, but with a truthy account and proxy the result holds
the old call and the two allowance calls only; no call of it is tagged
`accountSavings` or `accountBalanceForToken`, and none reads `pie`,
`balanceOf` or `getEthBalance`. -/
theorem updateWatcherWithAccount_adds_no_balance_or_savings_call :
    updateWatcherWithAccount sampleTokens targetUndefined sampleMaker
        (JSVal.str "0xA") (JSVal.str "0xP") [systemCall] =
      [systemCall,
        allowanceDescriptor (addTokenLookups sampleMaker.getContractAddresses) "MDAI"
          (JSVal.str "0xA") (JSVal.str "0xP"),
        allowanceDescriptor (addTokenLookups sampleMaker.getContractAddresses) "BAT"
          (JSVal.str "0xA") (JSVal.str "0xP")] ∧
    ∀ c ∈ updateWatcherWithAccount sampleTokens targetUndefined sampleMaker
          (JSVal.str "0xA") (JSVal.str "0xP") [systemCall],
      (metaFlag c "accountSavings").truthy = false ∧
        (metaFlag c "accountBalanceForToken").truthy = false ∧
        c.call.head? ≠ some (JSVal.str "pie(address)(uint256)") ∧
        c.call.head? ≠ some (JSVal.str "balanceOf(address)(uint256)") ∧
        c.call.head? ≠ some (JSVal.str "getEthBalance(address)(uint256)") := by
  decide

/-! ## The missing-address filter -/

/-- C4: after `startWatcher`, `updateWatcherWithAccount` and
`updateWatcherWithProxy` no registered call satisfies
`isMissingContractAddress`, and the registered list is the unfiltered merged
list restricted, in order, to the calls that do not satisfy it. -/
theorem registered_calls_have_contract_address {Ilk : Type} (ilks : List Ilk)
    (createCDPSystemModel : JSObject → List Call)
    (cdpTypeModel : JSObject → Ilk → List Call)
    (savingsModel : JSObject → List Call)
    (tokensWithBalances : List String) (isMissingContractAddress : Call → Bool)
    (maker : Maker) (accountAddress proxyAddress : JSVal) (calls : List Call) :
    ((∀ c ∈ startWatcher ilks createCDPSystemModel cdpTypeModel savingsModel
            isMissingContractAddress maker calls,
        isMissingContractAddress c = false) ∧
      startWatcher ilks createCDPSystemModel cdpTypeModel savingsModel
          isMissingContractAddress maker calls =
        (startMerged ilks createCDPSystemModel cdpTypeModel savingsModel
            (addTokenLookups maker.getContractAddresses) calls).filter
          (fun c => !isMissingContractAddress c)) ∧
    ((∀ c ∈ updateWatcherWithAccount tokensWithBalances isMissingContractAddress maker
            accountAddress proxyAddress calls,
        isMissingContractAddress c = false) ∧
      updateWatcherWithAccount tokensWithBalances isMissingContractAddress maker
          accountAddress proxyAddress calls =
        (accountMerged tokensWithBalances (addTokenLookups maker.getContractAddresses)
            accountAddress proxyAddress calls).filter
          (fun c => !isMissingContractAddress c)) ∧
    ((∀ c ∈ updateWatcherWithProxy tokensWithBalances isMissingContractAddress maker
            accountAddress proxyAddress calls,
        isMissingContractAddress c = false) ∧
      updateWatcherWithProxy tokensWithBalances isMissingContractAddress maker
          accountAddress proxyAddress calls =
        (proxyMerged tokensWithBalances (addTokenLookups maker.getContractAddresses)
            accountAddress proxyAddress calls).filter
          (fun c => !isMissingContractAddress c)) := by
  refine ⟨⟨?_, rfl⟩, ⟨?_, rfl⟩, ⟨?_, rfl⟩⟩ <;>
  · intro c hc
    have := (List.mem_filter.1 hc).2
    simpa using this

/-- The statement of C4 for `startWatcher` at a sample input in which the
address map has no `MCD_VAT` entry. -/
theorem registered_calls_have_contract_address_witness :
    (∀ c ∈ startWatcher sampleIlks sampleSystemModel sampleTypeModel sampleSavingsModel
          targetUndefined sampleMaker [systemCall],
      targetUndefined c = false) ∧
    startWatcher sampleIlks sampleSystemModel sampleTypeModel sampleSavingsModel
        targetUndefined sampleMaker [systemCall] =
      (startMerged sampleIlks sampleSystemModel sampleTypeModel sampleSavingsModel
          (addTokenLookups sampleMaker.getContractAddresses) [systemCall]).filter
        (fun c => !targetUndefined c) :=
  (registered_calls_have_contract_address sampleIlks sampleSystemModel sampleTypeModel
    sampleSavingsModel sampleTokens targetUndefined sampleMaker (JSVal.str "0xA")
    (JSVal.str "0xP") [systemCall]).1

/-! ## `updateWatcherWithProxy` -/

/-- C6: the list that `updateWatcherWithProxy` produces is the old list
followed, when account and proxy are both truthy, by the allowance calls of
the tokens other than `ETH` and `DSR`, with the calls that miss a contract
address dropped; every old call with a contract address is retained, tagged
or not, and nothing is appended when the account or the proxy is falsy. -/
theorem updateWatcherWithProxy_appends_allowance_calls
    (tokensWithBalances : List String) (isMissingContractAddress : Call → Bool)
    (maker : Maker) (accountAddress proxyAddress : JSVal) (calls : List Call) :
    updateWatcherWithProxy tokensWithBalances isMissingContractAddress maker
        accountAddress proxyAddress calls =
      calls.filter (fun c => !isMissingContractAddress c) ++
        (if (accountAddress.truthy && proxyAddress.truthy) = true then
          ((tokensWithBalances.filter (fun token => token != "ETH" && token != "DSR")).map
            (fun token =>
              allowanceDescriptor (addTokenLookups maker.getContractAddresses) token
                accountAddress proxyAddress)).filter
            (fun c => !isMissingContractAddress c)
        else []) ∧
    (∀ c ∈ calls, isMissingContractAddress c = false →
      c ∈ updateWatcherWithProxy tokensWithBalances isMissingContractAddress maker
        accountAddress proxyAddress calls) ∧
    ((accountAddress.truthy && proxyAddress.truthy) = false →
      updateWatcherWithProxy tokensWithBalances isMissingContractAddress maker
          accountAddress proxyAddress calls =
        calls.filter (fun c => !isMissingContractAddress c)) := by
  have hres : updateWatcherWithProxy tokensWithBalances isMissingContractAddress maker
        accountAddress proxyAddress calls =
      calls.filter (fun c => !isMissingContractAddress c) ++
        (if (accountAddress.truthy && proxyAddress.truthy) = true then
          ((tokensWithBalances.filter (fun token => token != "ETH" && token != "DSR")).map
            (fun token =>
              allowanceDescriptor (addTokenLookups maker.getContractAddresses) token
                accountAddress proxyAddress)).filter
            (fun c => !isMissingContractAddress c)
        else []) := by
    simp only [updateWatcherWithProxy, tap, proxyMerged, List.filter_append, allowanceCalls_eq]
    by_cases h : (accountAddress.truthy && proxyAddress.truthy) = true
    · rw [if_pos h, if_pos h]
    · rw [if_neg h, if_neg h]
      rfl
  refine ⟨hres, ?_, ?_⟩
  · intro c hc hmiss
    rw [hres]
    exact List.mem_append_left _ (List.mem_filter.2 ⟨hc, by simp [hmiss]⟩)
  · intro h
    rw [hres, h]
    simp

/-- The statement of C6 at a sample input: the tagged call of an earlier
account stays registered. -/
theorem updateWatcherWithProxy_appends_allowance_calls_witness :
    staleCall ∈ [staleCall, systemCall] ∧ targetUndefined staleCall = false ∧
    staleCall ∈ updateWatcherWithProxy sampleTokens targetUndefined sampleMaker
      (JSVal.str "0xA") (JSVal.str "0xP") [staleCall, systemCall] :=
  ⟨by decide, by decide,
    (updateWatcherWithProxy_appends_allowance_calls sampleTokens targetUndefined sampleMaker
      (JSVal.str "0xA") (JSVal.str "0xP") [staleCall, systemCall]).2.1 staleCall
      (by decide) (by decide)⟩

/-! ## `startWatcher` -/

/-- C7: the list that `startWatcher` registers is the previous calls, then
`createCDPSystemModel(addresses)`, then the calls of `cdpTypeModel(addresses,
ilk)` for each ilk in the order of the ilk list, then
`savingsModel(addresses)`, with the calls satisfying
`isMissingContractAddress` removed; `addresses` is the address map after the
`MDAI` and `MWETH` entries were added. -/
theorem startWatcher_registers_initial_calls {Ilk : Type} (ilks : List Ilk)
    (createCDPSystemModel : JSObject → List Call)
    (cdpTypeModel : JSObject → Ilk → List Call)
    (savingsModel : JSObject → List Call)
    (isMissingContractAddress : Call → Bool) (maker : Maker) (calls : List Call) :
    startWatcher ilks createCDPSystemModel cdpTypeModel savingsModel
        isMissingContractAddress maker calls =
      (calls
        ++ createCDPSystemModel (addTokenLookups maker.getContractAddresses)
        ++ (ilks.map
              (fun ilk => cdpTypeModel (addTokenLookups maker.getContractAddresses) ilk)).foldr
            (fun xs acc => xs ++ acc) []
        ++ savingsModel (addTokenLookups maker.getContractAddresses)).filter
        (fun c => !isMissingContractAddress c) ∧
    (∀ c ∈ calls, isMissingContractAddress c = false →
      c ∈ startWatcher ilks createCDPSystemModel cdpTypeModel savingsModel
        isMissingContractAddress maker calls) := by
  have hfl : ∀ xss : List (List Call), flatten xss = xss.foldr (fun xs acc => xs ++ acc) [] := by
    intro xss
    induction xss with
    | nil => rfl
    | cons xs xss ih => simp [flatten, ih]
  constructor
  · simp only [startWatcher, tap, startMerged, hfl]
  · intro c hc hmiss
    simp only [startWatcher, tap, startMerged]
    refine List.mem_filter.2 ⟨?_, by simp [hmiss]⟩
    simp [hc]

/-- The statement of C7 at a sample input: a registered call with a contract
address survives `startWatcher`. -/
theorem startWatcher_registers_initial_calls_witness :
    systemCall ∈ [systemCall] ∧ targetUndefined systemCall = false ∧
    systemCall ∈ startWatcher sampleIlks sampleSystemModel sampleTypeModel
      sampleSavingsModel targetUndefined sampleMaker [systemCall] :=
  ⟨by decide, by decide,
    (startWatcher_registers_initial_calls sampleIlks sampleSystemModel sampleTypeModel
      sampleSavingsModel targetUndefined sampleMaker [systemCall]).2 systemCall
      (by decide) (by decide)⟩

/-! ## Tokens without an allowance and token lookups -/

/-- C5 fails in two ways.  With a `null` proxy neither function adds a call
although `MDAI` is a token other than `ETH` and `DSR`; and for a token symbol
that itself ends in `.allowances.ETH` the added call has a returns key ending
in `.allowances.ETH`. -/
theorem allowance_calls_claim_fails :
    (accountMerged ["MDAI"] (addTokenLookups sampleMaker.getContractAddresses)
        (JSVal.str "0xA") JSVal.null [] = [] ∧
      proxyMerged ["MDAI"] (addTokenLookups sampleMaker.getContractAddresses)
        (JSVal.str "0xA") JSVal.null [] = []) ∧
    (∃ c ∈ updateWatcherWithProxy ["T.allowances.ETH"] (fun _ => false) sampleMaker
          (JSVal.str "0xA") (JSVal.str "0xP") [],
      ∃ k ∈ c.returns, endsIn k.1 ".allowances.ETH") := by
  refine ⟨by decide, ?_⟩
  refine ⟨allowanceDescriptor (addTokenLookups sampleMaker.getContractAddresses)
    "T.allowances.ETH" (JSVal.str "0xA") (JSVal.str "0xP"), by decide, ?_⟩
  exact ⟨("accounts.0xA.allowances.T.allowances.ETH", Transform.fromWeiToNumber),
    by decide, by decide⟩

/-- C5, amended: the calls that `updateWatcherWithAccount` and
`updateWatcherWithProxy` add are built for tokens of `tokensWithBalances`
other than `ETH` and `DSR`; when no token symbol contains a dot, no added
call has a returns key ending in `.allowances.ETH` or `.allowances.DSR`; with
a truthy account and proxy they add, before the missing-address filter,
exactly one allowance call per token other than `ETH` and `DSR`, in the order
of `tokensWithBalances`; with a falsy account or proxy they add none. -/
theorem allowance_calls_skip_eth_and_dsr
    (tokensWithBalances : List String) (isMissingContractAddress : Call → Bool)
    (maker : Maker) (accountAddress proxyAddress : JSVal) (calls : List Call) :
    ∃ added : List Call,
      updateWatcherWithAccount tokensWithBalances isMissingContractAddress maker
          accountAddress proxyAddress calls =
        (calls.filter
            (fun call =>
              !((accountAddress.and proxyAddress).and
                  (metaFlag call "accountProxyAllowanceForToken")).truthy)
          ++ added).filter (fun c => !isMissingContractAddress c) ∧
      updateWatcherWithProxy tokensWithBalances isMissingContractAddress maker
          accountAddress proxyAddress calls =
        (calls ++ added).filter (fun c => !isMissingContractAddress c) ∧
      (∀ c ∈ added, ∃ token ∈ tokensWithBalances, token ≠ "ETH" ∧ token ≠ "DSR" ∧
        c ∈ accountProxyAllowanceForToken (addTokenLookups maker.getContractAddresses)
          token accountAddress proxyAddress) ∧
      ((∀ token ∈ tokensWithBalances, '.' ∉ token.data) →
        ∀ c ∈ added, ∀ k ∈ c.returns,
          ¬ endsIn k.1 ".allowances.ETH" ∧ ¬ endsIn k.1 ".allowances.DSR") ∧
      (accountAddress.truthy = true → proxyAddress.truthy = true →
        added =
          (tokensWithBalances.filter (fun token => token != "ETH" && token != "DSR")).map
            (fun token =>
              allowanceDescriptor (addTokenLookups maker.getContractAddresses) token
                accountAddress proxyAddress)) ∧
      ((accountAddress.truthy && proxyAddress.truthy) = false → added = []) := by
  refine ⟨allowanceCalls tokensWithBalances (addTokenLookups maker.getContractAddresses)
    accountAddress proxyAddress, rfl, rfl, ?_, ?_, ?_, ?_⟩
  · intro c hc
    obtain ⟨_, _, t, ht, h1, h2, rfl⟩ := (mem_allowanceCalls _ _ _ _ _).1 hc
    exact ⟨t, ht, h1, h2, by simp [accountProxyAllowanceForToken]⟩
  · intro hdot c hc k hk
    obtain ⟨_, _, t, ht, h1, h2, rfl⟩ := (mem_allowanceCalls _ _ _ _ _).1 hc
    simp only [allowanceDescriptor, List.mem_singleton] at hk
    subst hk
    constructor
    · intro hend
      exact h1 (allowance_key_endsIn _ t "ETH" (hdot t ht) (by decide) hend)
    · intro hend
      exact h2 (allowance_key_endsIn _ t "DSR" (hdot t ht) (by decide) hend)
  · intro ha hp
    rw [allowanceCalls_eq]
    simp [ha, hp]
  · intro h
    rw [allowanceCalls_eq]
    simp [h]

/-- The statement of C5 as amended at a sample input: with dot-free token
symbols no registered call of `updateWatcherWithProxy` on an empty list has a
returns key ending in `.allowances.ETH` or `.allowances.DSR`. -/
theorem allowance_calls_skip_eth_and_dsr_witness :
    (∀ token ∈ sampleTokens, '.' ∉ token.data) ∧
    ∀ c ∈ updateWatcherWithProxy sampleTokens targetUndefined sampleMaker
          (JSVal.str "0xA") (JSVal.str "0xP") [],
      ∀ k ∈ c.returns,
        ¬ endsIn k.1 ".allowances.ETH" ∧ ¬ endsIn k.1 ".allowances.DSR" := by
  refine ⟨by decide, ?_⟩
  obtain ⟨added, _, hproxy, _, hkeys, _, _⟩ :=
    allowance_calls_skip_eth_and_dsr sampleTokens targetUndefined sampleMaker
      (JSVal.str "0xA") (JSVal.str "0xP") []
  intro c hc k hk
  rw [hproxy] at hc
  have hc' : c ∈ added := by simpa using (List.mem_filter.1 hc).1
  exact hkeys (by decide) c hc' k hk

/-- C8: with a truthy account and proxy, the allowance call that
`updateWatcherWithAccount` and `updateWatcherWithProxy` build for a token of
`tokensWithBalances` other than `ETH` and `DSR` has the target
`addresses.MCD_DAI` for `MDAI`, `addresses.ETH` for `MWETH`, and the original
entry `addresses[T]` for any other symbol `T`, where `addresses` is the map
that `getContractAddresses` returned. -/
theorem allowance_targets_resolve_token_lookups
    (tokensWithBalances : List String) (isMissingContractAddress : Call → Bool)
    (maker : Maker) (accountAddress proxyAddress : JSVal) (calls : List Call)
    (ha : accountAddress.truthy = true) (hp : proxyAddress.truthy = true) :
    ∀ token ∈ tokensWithBalances, token ≠ "ETH" → token ≠ "DSR" →
      ∃ c,
        accountProxyAllowanceForToken (addTokenLookups maker.getContractAddresses) token
            accountAddress proxyAddress = [c] ∧
        c ∈ accountMerged tokensWithBalances (addTokenLookups maker.getContractAddresses)
            accountAddress proxyAddress calls ∧
        c ∈ proxyMerged tokensWithBalances (addTokenLookups maker.getContractAddresses)
            accountAddress proxyAddress calls ∧
        (isMissingContractAddress c = false →
          c ∈ updateWatcherWithAccount tokensWithBalances isMissingContractAddress maker
              accountAddress proxyAddress calls ∧
            c ∈ updateWatcherWithProxy tokensWithBalances isMissingContractAddress maker
              accountAddress proxyAddress calls) ∧
        (token = "MDAI" → c.target = getProp maker.getContractAddresses "MCD_DAI") ∧
        (token = "MWETH" → c.target = getProp maker.getContractAddresses "ETH") ∧
        (token ≠ "MDAI" → token ≠ "MWETH" →
          c.target = getProp maker.getContractAddresses token) := by
  intro t ht h1 h2
  have hmem : allowanceDescriptor (addTokenLookups maker.getContractAddresses) t
      accountAddress proxyAddress ∈
      allowanceCalls tokensWithBalances (addTokenLookups maker.getContractAddresses)
        accountAddress proxyAddress :=
    (mem_allowanceCalls _ _ _ _ _).2 ⟨ha, hp, t, ht, h1, h2, rfl⟩
  have hacc := List.mem_append_right
    (calls.filter
      (fun call =>
        !((accountAddress.and proxyAddress).and
            (metaFlag call "accountProxyAllowanceForToken")).truthy)) hmem
  have hprx := List.mem_append_right calls hmem
  refine ⟨_, rfl, hacc, hprx, ?_, ?_, ?_, ?_⟩
  · intro hmiss
    exact ⟨List.mem_filter.2 ⟨hacc, by simp [hmiss]⟩,
      List.mem_filter.2 ⟨hprx, by simp [hmiss]⟩⟩
  · intro e
    simp [allowanceDescriptor, getProp_addTokenLookups, e]
  · intro e
    have : ¬ ("MWETH" = "MDAI") := by decide
    simp [allowanceDescriptor, getProp_addTokenLookups, e, this]
  · intro e1 e2
    simp [allowanceDescriptor, getProp_addTokenLookups, e1, e2]

/-- The statement of C8 at a sample input: the allowance call built for
`MDAI` has the `MCD_DAI` address as its target. -/
theorem allowance_targets_resolve_token_lookups_witness :
    (JSVal.str "0xA").truthy = true ∧ (JSVal.str "0xP").truthy = true ∧
    ∃ c,
      accountProxyAllowanceForToken (addTokenLookups sampleMaker.getContractAddresses) "MDAI"
          (JSVal.str "0xA") (JSVal.str "0xP") = [c] ∧
      c ∈ updateWatcherWithAccount sampleTokens targetUndefined sampleMaker
          (JSVal.str "0xA") (JSVal.str "0xP") [systemCall] ∧
      c.target = JSVal.str "0xdai" := by
  obtain ⟨c, hc, _, _, hreg, hdai, _, _⟩ :=
    allowance_targets_resolve_token_lookups sampleTokens targetUndefined sampleMaker
      (JSVal.str "0xA") (JSVal.str "0xP") [systemCall] (by decide) (by decide)
      "MDAI" (by decide) (by decide) (by decide)
  have ht : c.target = JSVal.str "0xdai" := by
    rw [hdai rfl]
    decide
  have hmiss : targetUndefined c = false := by
    simp [targetUndefined, ht]
  exact ⟨by decide, by decide, c, hc, (hreg hmiss).1, ht⟩

end McdCdpPortal
